import Mathlib

/-!
Verification of the `markdown-rs` repository: a shallow embedding of the
mdast syntax tree (`src/mdast.rs`) and of the reverse serializer
`to_markdown` (`src/generate.rs`), together with a parser model for the
parts of the pipeline the repository only exposes through its tests.

Strings are modelled as lists of characters (`List Char`), matching the
byte-exact string operations of the source; `String` literals are bridged
through `String.data`.
-/

namespace Markdown

/-- `unist::Point`: 1-indexed line/column, 0-indexed byte offset. -/
structure Point where
  line : Nat
  column : Nat
  offset : Nat
deriving DecidableEq, Repr

/-- `unist::Position`: a start and an end point (the source field `end` is
spelled `endPoint` because `end` is a keyword). -/
structure Position where
  start : Point
  endPoint : Point
deriving DecidableEq, Repr

/-- `mdast::Stop`: relative byte index into a string paired with an absolute
byte index into the whole document. -/
def Stop := Nat × Nat
deriving DecidableEq, Repr

/-- `mdast::ReferenceKind`. -/
inductive ReferenceKind where
  | Shortcut
  | Collapsed
  | Full
deriving DecidableEq, Repr

/-- `mdast::AlignKind`. -/
inductive AlignKind where
  | Left
  | Right
  | Center
  | None
deriving DecidableEq, Repr

/-- `mdast::AttributeValue`: either an expression with stops or a literal. -/
inductive AttributeValue where
  | Expression (value : List Char) (stops : List Stop)
  | Literal (value : List Char)
deriving DecidableEq, Repr

/-- `mdast::MdxJsxAttribute`: a name with an optional value. -/
structure MdxJsxAttribute where
  name : List Char
  value : Option AttributeValue
deriving DecidableEq, Repr

/-- `mdast::AttributeContent`: a spread expression or a property. -/
inductive AttributeContent where
  | Expression (value : List Char) (stops : List Stop)
  | Property (attr : MdxJsxAttribute)
deriving DecidableEq, Repr

/-- `mdast::Node`: the closed tagged-variant syntax-tree type, with each
variant carrying the payload fields of the corresponding Rust struct (in
the struct's field order). -/
inductive Node where
  | Root (children : List Node) (position : Option Position)
  | BlockQuote (children : List Node) (position : Option Position)
  | FootnoteDefinition (children : List Node) (position : Option Position)
      (identifier : List Char) (label : Option (List Char))
  | MdxJsxFlowElement (children : List Node) (position : Option Position)
      (name : Option (List Char)) (attributes : List AttributeContent)
  | List (children : List Node) (position : Option Position)
      (ordered : Bool) (start : Option Nat) (spread : Bool)
  | MdxjsEsm (value : List Char) (position : Option Position) (stops : List Stop)
  | Toml (value : List Char) (position : Option Position)
  | Yaml (value : List Char) (position : Option Position)
  | Break (position : Option Position)
  | InlineCode (value : List Char) (position : Option Position)
  | InlineMath (value : List Char) (position : Option Position)
  | Delete (children : List Node) (position : Option Position)
  | Emphasis (children : List Node) (position : Option Position)
  | MdxTextExpression (value : List Char) (position : Option Position) (stops : List Stop)
  | FootnoteReference (position : Option Position)
      (identifier : List Char) (label : Option (List Char))
  | Html (value : List Char) (position : Option Position)
  | Image (position : Option Position) (alt : List Char) (url : List Char)
      (title : Option (List Char))
  | ImageReference (position : Option Position) (alt : List Char)
      (referenceKind : ReferenceKind) (identifier : List Char) (label : Option (List Char))
  | MdxJsxTextElement (children : List Node) (position : Option Position)
      (name : Option (List Char)) (attributes : List AttributeContent)
  | Link (children : List Node) (position : Option Position)
      (url : List Char) (title : Option (List Char))
  | LinkReference (children : List Node) (position : Option Position)
      (referenceKind : ReferenceKind) (identifier : List Char) (label : Option (List Char))
  | Strong (children : List Node) (position : Option Position)
  | Text (value : List Char) (position : Option Position)
  | Code (value : List Char) (position : Option Position)
      (lang : Option (List Char)) (meta : Option (List Char))
  | Math (value : List Char) (position : Option Position) (meta : Option (List Char))
  | MdxFlowExpression (value : List Char) (position : Option Position) (stops : List Stop)
  | Heading (children : List Node) (position : Option Position) (depth : Nat)
  | Table (children : List Node) (position : Option Position) (align : List AlignKind)
  | ThematicBreak (position : Option Position)
  | TableRow (children : List Node) (position : Option Position)
  | TableCell (children : List Node) (position : Option Position)
  | ListItem (children : List Node) (position : Option Position)
      (spread : Bool) (checked : Option Bool)
  | Definition (position : Option Position) (url : List Char)
      (title : Option (List Char)) (identifier : List Char) (label : Option (List Char))
  | Paragraph (children : List Node) (position : Option Position)

/-- `Vec<Node>`: an ordered child sequence (named so the constructor
`Node.List` does not shadow the list type inside `namespace Node`). -/
abbrev NodeList : Type := List Node

namespace Node

/-- `Node::children` from `src/mdast.rs`: the child list for parent
variants, `none` for the others. -/
def children : Node → Option NodeList
  | Root x _ => some x
  | Paragraph x _ => some x
  | Heading x _ _ => some x
  | BlockQuote x _ => some x
  | List x _ _ _ _ => some x
  | ListItem x _ _ _ => some x
  | Emphasis x _ => some x
  | Strong x _ => some x
  | Link x _ _ _ => some x
  | LinkReference x _ _ _ _ => some x
  | FootnoteDefinition x _ _ _ => some x
  | Table x _ _ => some x
  | TableRow x _ => some x
  | TableCell x _ => some x
  | Delete x _ => some x
  | MdxJsxFlowElement x _ _ _ => some x
  | MdxJsxTextElement x _ _ _ => some x
  | _ => none

/-- `Node::position` from `src/mdast.rs`. -/
def position : Node → Option Position
  | Root _ p => p
  | BlockQuote _ p => p
  | FootnoteDefinition _ p _ _ => p
  | MdxJsxFlowElement _ p _ _ => p
  | List _ p _ _ _ => p
  | MdxjsEsm _ p _ => p
  | Toml _ p => p
  | Yaml _ p => p
  | Break p => p
  | InlineCode _ p => p
  | InlineMath _ p => p
  | Delete _ p => p
  | Emphasis _ p => p
  | MdxTextExpression _ p _ => p
  | FootnoteReference p _ _ => p
  | Html _ p => p
  | Image p _ _ _ => p
  | ImageReference p _ _ _ _ => p
  | MdxJsxTextElement _ p _ _ => p
  | Link _ p _ _ => p
  | LinkReference _ p _ _ _ => p
  | Strong _ p => p
  | Text _ p => p
  | Code _ p _ _ => p
  | Math _ p _ => p
  | MdxFlowExpression _ p _ => p
  | Heading _ p _ => p
  | Table _ p _ => p
  | ThematicBreak p => p
  | TableRow _ p => p
  | TableCell _ p => p
  | ListItem _ p _ _ => p
  | Definition p _ _ _ _ => p
  | Paragraph _ p => p

/-- `Node::position_set` from `src/mdast.rs`, as a functional update:
replace the variant's position field with `q`. -/
def position_set : Node → Option Position → Node
  | Root c _, q => Root c q
  | BlockQuote c _, q => BlockQuote c q
  | FootnoteDefinition c _ i l, q => FootnoteDefinition c q i l
  | MdxJsxFlowElement c _ n a, q => MdxJsxFlowElement c q n a
  | List c _ o s sp, q => List c q o s sp
  | MdxjsEsm v _ s, q => MdxjsEsm v q s
  | Toml v _, q => Toml v q
  | Yaml v _, q => Yaml v q
  | Break _, q => Break q
  | InlineCode v _, q => InlineCode v q
  | InlineMath v _, q => InlineMath v q
  | Delete c _, q => Delete c q
  | Emphasis c _, q => Emphasis c q
  | MdxTextExpression v _ s, q => MdxTextExpression v q s
  | FootnoteReference _ i l, q => FootnoteReference q i l
  | Html v _, q => Html v q
  | Image _ a u t, q => Image q a u t
  | ImageReference _ a r i l, q => ImageReference q a r i l
  | MdxJsxTextElement c _ n a, q => MdxJsxTextElement c q n a
  | Link c _ u t, q => Link c q u t
  | LinkReference c _ r i l, q => LinkReference c q r i l
  | Strong c _, q => Strong c q
  | Text v _, q => Text v q
  | Code v _ lg m, q => Code v q lg m
  | Math v _ m, q => Math v q m
  | MdxFlowExpression v _ s, q => MdxFlowExpression v q s
  | Heading c _ d, q => Heading c q d
  | Table c _ a, q => Table c q a
  | ThematicBreak _, q => ThematicBreak q
  | TableRow c _, q => TableRow c q
  | TableCell c _, q => TableCell c q
  | ListItem c _ s ch, q => ListItem c q s ch
  | Definition _ u t i l, q => Definition q u t i l
  | Paragraph c _, q => Paragraph c q

end Node

/-- `str::rsplit_once` specialised to a one-character pattern: split around
the last occurrence of `c`, returning the parts before and after it. -/
def rsplitOnceChar (c : Char) : List Char → Option (List Char × List Char)
  | [] => none
  | x :: xs =>
    match rsplitOnceChar c xs with
    | some (pre, post) => some (x :: pre, post)
    | none => if x = c then some ([], xs) else none

/-- `str::replace("\n", "\n> ")` as used by the BlockQuote branch: every
line feed becomes a line feed followed by the `> ` marker. -/
def replaceNlWithMarker : List Char → List Char
  | [] => []
  | x :: xs =>
    if x = '\n' then '\n' :: '>' :: ' ' :: replaceNlWithMarker xs
    else x :: replaceNlWithMarker xs

mutual

/-- `to_markdown` from `src/generate.rs`: convert an mdast node into a
markdown character sequence. A `todo!()` branch of the source (a panic)
is modelled as `none`; implemented branches propagate a child's panic. -/
def to_markdown : Node → Option (List Char)
  | .Root children _ => to_markdown_list children
  | .BlockQuote children _ =>
    (to_markdown_list children).map (fun kids =>
      match rsplitOnceChar '\n' kids with
      | some (pre, post) =>
        ('>' :: ' ' :: (replaceNlWithMarker pre ++ post)) ++ ['\n']
      | none => '>' :: ' ' :: ['\n'])
  | .FootnoteDefinition _ _ _ _ => none
  | .MdxJsxFlowElement _ _ _ _ => none
  | .List _ _ _ _ _ => none
  | .MdxjsEsm _ _ _ => none
  | .Toml _ _ => none
  | .Yaml _ _ => none
  | .Break _ => none
  | .InlineCode _ _ => none
  | .InlineMath _ _ => none
  | .Delete children _ =>
    (to_markdown_list children).map (fun kids => '~' :: '~' :: kids ++ ['~', '~'])
  | .Emphasis children _ =>
    (to_markdown_list children).map (fun kids => '*' :: kids ++ ['*'])
  | .MdxTextExpression _ _ _ => none
  | .FootnoteReference _ _ _ => none
  | .Html _ _ => none
  | .Image _ _ _ _ => none
  | .ImageReference _ _ _ _ _ => none
  | .MdxJsxTextElement _ _ _ _ => none
  | .Link children _ url _ =>
    (to_markdown_list children).map (fun kids =>
      '[' :: kids ++ ']' :: '(' :: url ++ [')'])
  | .LinkReference _ _ _ _ _ => none
  | .Strong children _ =>
    (to_markdown_list children).map (fun kids => '*' :: '*' :: kids ++ ['*', '*'])
  | .Text value _ => some value
  | .Code _ _ _ _ => none
  | .Math _ _ _ => none
  | .MdxFlowExpression _ _ _ => none
  | .Heading children _ depth =>
    (to_markdown_list children).map (fun kids =>
      List.replicate depth '#' ++ ' ' :: (kids ++ ['\n', '\n']))
  | .Table _ _ _ => none
  | .ThematicBreak _ => none
  | .TableRow _ _ => none
  | .TableCell _ _ => none
  | .ListItem _ _ _ _ => none
  | .Definition _ _ _ _ _ => none
  | .Paragraph children _ =>
    (to_markdown_list children).map (fun kids => kids ++ ['\n'])

/-- The child loop shared by every parent branch of `to_markdown`:
serialize each child in order and concatenate, propagating a panic. -/
def to_markdown_list : List Node → Option (List Char)
  | [] => some []
  | n :: rest =>
    match to_markdown n, to_markdown_list rest with
    | some a, some b => some (a ++ b)
    | _, _ => none

end

/-! ### Parser model

The tokenizer, resolvers and AST compiler (`parse_to_tree`) are not part
of the sources at hand — only the mdast data model, the reverse
serializer and a test file are.  The definitions below therefore model
the parsing pipeline from the specification, restricted to the
constructs the claims exercise: paragraphs, ATX headings, block quotes
and emphasis, with the degrade-not-fail policy for unmatched inline
delimiters.  Position fields are left absent (`none`); the claims
settled against this model concern node structure and literal values.
-/

/-- Split a character sequence into its lines at line feeds (a trailing
line feed yields a final empty line). -/
def splitLines : List Char → List (List Char)
  | [] => [[]]
  | x :: xs =>
    if x = '\n' then [] :: splitLines xs
    else
      match splitLines xs with
      | l :: ls => (x :: l) :: ls
      | [] => [[x]]

/-- Join lines back with line feeds between them. -/
def joinLinesNl : List (List Char) → List Char
  | [] => []
  | [l] => l
  | l :: ls => l ++ '\n' :: joinLinesNl ls

/-- Split around the first occurrence of `c`, returning the parts before
and after it. -/
def splitAtChar (c : Char) : List Char → Option (List Char × List Char)
  | [] => none
  | x :: xs =>
    if x = c then some ([], xs)
    else (splitAtChar c xs).map (fun pr => (x :: pr.1, pr.2))

/-- A blank line. -/
def isBlank (l : List Char) : Bool := l.isEmpty

/-- A line that opens or continues a block quote: it starts with the `>`
marker. -/
def startsWithGt : List Char → Bool
  | '>' :: _ => true
  | _ => false

/-- Modelled from the spec: the block-quote marker `"> "` (or a bare `>`)
is stripped from a continuation line and is not part of any literal
value. -/
def stripBqMarker : List Char → List Char
  | '>' :: ' ' :: rest => rest
  | '>' :: rest => rest
  | l => l

/-- The number of leading `#` characters of a line. -/
def countLeadingHashes : List Char → Nat
  | '#' :: xs => countLeadingHashes xs + 1
  | _ => 0

/-- Modelled from the spec: an ATX heading opens with one to six `#`
characters followed by a mandatory space; the rank and the remaining
content are returned, and any other line is not a heading. -/
def atxHeading (l : List Char) : Option (Nat × List Char) :=
  let n := countLeadingHashes l
  if 1 ≤ n ∧ n ≤ 6 then
    match l.drop n with
    | ' ' :: rest => some (n, rest)
    | _ => none
  else none

/-- A line that continues a paragraph: non-blank, not a block-quote
marker line, not an ATX heading (headings and block quotes interrupt a
paragraph). -/
def isParagraphLine (l : List Char) : Bool :=
  !isBlank l && !startsWithGt l && (atxHeading l).isNone

/-- Modelled from the spec: attention (emphasis) resolution for `*`
delimiters, simplified to nearest-closer pairing; an opener with no
closer degrades to literal text covering its original span rather than
failing.  `acc` holds already-scanned literal characters in reverse. -/
def parseInlineAux : Nat → List Char → List Char → List Node
  | 0, acc, rest =>
    if (acc.reverse ++ rest).isEmpty then [] else [Node.Text (acc.reverse ++ rest) none]
  | _ + 1, acc, [] =>
    if acc.isEmpty then [] else [Node.Text acc.reverse none]
  | fuel + 1, acc, x :: xs =>
    if x = '*' then
      match splitAtChar '*' xs with
      | some (content, after) =>
        if content.isEmpty then parseInlineAux fuel (x :: acc) xs
        else
          (if acc.isEmpty then [] else [Node.Text acc.reverse none]) ++
            Node.Emphasis [Node.Text content none] none :: parseInlineAux fuel [] after
      | none => [Node.Text (acc.reverse ++ x :: xs) none]
    else parseInlineAux fuel (x :: acc) xs

/-- Modelled from the spec: inline tokenization of a line run, after
block structure is fixed. -/
def parseInline (l : List Char) : List Node :=
  parseInlineAux (l.length + 1) [] l

/-- Modelled from the spec: the container/line manager and block
tokenization, folding lines into block nodes.  Block quotes collect
their marked lines, strip the marker and recursively parse the stripped
lines; ATX headings take one line; remaining non-blank lines group into
paragraphs joined with line feeds.  `fuel` bounds the recursion and is
chosen large enough by `parse_to_tree` that it is never exhausted. -/
def parseBlocks : Nat → List (List Char) → List Node
  | 0, _ => []
  | _ + 1, [] => []
  | fuel + 1, line :: rest =>
    if isBlank line then parseBlocks fuel rest
    else if startsWithGt line then
      let bq := (line :: rest).takeWhile startsWithGt
      let after := (line :: rest).dropWhile startsWithGt
      Node.BlockQuote (parseBlocks fuel (bq.map stripBqMarker)) none ::
        parseBlocks fuel after
    else
      match atxHeading line with
      | some (depth, content) =>
        Node.Heading (parseInline content) none depth :: parseBlocks fuel rest
      | none =>
        let para := (line :: rest).takeWhile isParagraphLine
        let after := (line :: rest).dropWhile isParagraphLine
        Node.Paragraph (parseInline (joinLinesNl para)) none ::
          parseBlocks fuel after

/-- Modelled from the spec: `parse_to_tree(source, options) ->
Result<SyntaxTree, PositionedError>` for the default capability set (no
MDX hooks), under which the modelled constructs never produce a fatal
error — soft ambiguities degrade to literal text. -/
def parse_to_tree (s : String) : Except (List Char) Node :=
  let lines := splitLines s.data
  Except.ok (Node.Root (parseBlocks (s.data.length + lines.length + 2) lines) none)

/-! ### Classification predicates and further helpers -/

/-- The variants whose `to_markdown` branch in `src/generate.rs` is a
`todo!()` (an explicit unimplemented-case panic). -/
def todoVariant : Node → Bool
  | .FootnoteDefinition _ _ _ _ => true
  | .MdxJsxFlowElement _ _ _ _ => true
  | .List _ _ _ _ _ => true
  | .MdxjsEsm _ _ _ => true
  | .Toml _ _ => true
  | .Yaml _ _ => true
  | .Break _ => true
  | .InlineCode _ _ => true
  | .InlineMath _ _ => true
  | .MdxTextExpression _ _ _ => true
  | .FootnoteReference _ _ _ => true
  | .Html _ _ => true
  | .Image _ _ _ _ => true
  | .ImageReference _ _ _ _ _ => true
  | .MdxJsxTextElement _ _ _ _ => true
  | .LinkReference _ _ _ _ _ => true
  | .Code _ _ _ _ => true
  | .Math _ _ _ => true
  | .MdxFlowExpression _ _ _ => true
  | .Table _ _ _ => true
  | .ThematicBreak _ => true
  | .TableRow _ _ => true
  | .TableCell _ _ => true
  | .ListItem _ _ _ _ => true
  | .Definition _ _ _ _ _ => true
  | _ => false

/-- The specification's *parent* classification, written from the spec's
own listing (for comparison with the source's `Node::children`): Root,
BlockQuote, Paragraph, Heading, List, ListItem, Emphasis, Strong,
Delete, Link, LinkReference, Table, TableRow, TableCell,
FootnoteDefinition, and the two embedded-element (MDX JSX) variants. -/
def isParentVariantSpec : Node → Bool
  | .Root _ _ => true
  | .BlockQuote _ _ => true
  | .Paragraph _ _ => true
  | .Heading _ _ _ => true
  | .List _ _ _ _ _ => true
  | .ListItem _ _ _ _ => true
  | .Emphasis _ _ => true
  | .Strong _ _ => true
  | .Delete _ _ => true
  | .Link _ _ _ _ => true
  | .LinkReference _ _ _ _ _ => true
  | .Table _ _ _ => true
  | .TableRow _ _ => true
  | .TableCell _ _ => true
  | .FootnoteDefinition _ _ _ _ => true
  | .MdxJsxFlowElement _ _ _ _ => true
  | .MdxJsxTextElement _ _ _ _ => true
  | _ => false

/-- Whether `c` occurs in the sequence. -/
def hasChar (c : Char) : List Char → Bool
  | [] => false
  | x :: xs => if x = c then true else hasChar c xs

/-- A sequence without the pattern character splits to `none` under
`rsplit_once`. -/
theorem rsplitOnceChar_eq_none (c : Char) (l : List Char)
    (h : hasChar c l = false) : rsplitOnceChar c l = none := by
  induction l with
  | nil => rfl
  | cons x xs ih =>
    by_cases hx : x = c
    · simp [hasChar, hx] at h
    · simp only [hasChar, if_neg hx] at h
      simp [rsplitOnceChar, ih h, hx]

/-- From `src/tests/mdx_jsx_text.rs` (`mdx_jsx_text_gnostic`): the input
of the "should crash on an empty attribute value expression" case. -/
def mdx_empty_expression_input : String := "a <b c={} /> d"

/-- From `src/tests/mdx_jsx_text.rs` (`mdx_jsx_text_gnostic`): the exact
error the parser is asserted to produce for
`mdx_empty_expression_input`. -/
def mdx_empty_expression_error : String :=
  "1:15: Could not parse expression with swc: Unexpected eof"

/-- 0-indexed position of the first occurrence of `c`. -/
def firstIndexOf (c : Char) : List Char → Option Nat
  | [] => none
  | x :: xs => if x = c then some 0 else (firstIndexOf c xs).map (· + 1)

/-- Read a non-empty digit sequence as a natural number. -/
def digitsToNat (ds : List Char) : Option Nat :=
  if ds.isEmpty then none
  else if ds.all Char.isDigit then
    some (ds.foldl (fun a c => a * 10 + (c.toNat - 48)) 0)
  else none

/-- The `<line>:<column>` prefix of a `PositionedError`'s textual form. -/
def errorLineCol (l : List Char) : Option (Nat × Nat) :=
  match digitsToNat (l.takeWhile Char.isDigit), l.dropWhile Char.isDigit with
  | some ln, ':' :: r2 =>
    (digitsToNat (r2.takeWhile Char.isDigit)).map (fun col => (ln, col))
  | _, _ => none

/-! ### Theorems for the claims -/

/-- C1: the round-trip contract fails on the code because `to_markdown`
drops a Link's title.  The tree for `[a](b "t")` (a Root holding one
Paragraph holding one Link with url `b` and title `t`) serializes to
`"[a](b)\n"`, which is byte-for-byte the same output as for the identical
tree without the title — so no re-parse of the serialized text can
recover the title, and the two distinct trees cannot both round-trip. -/
theorem link_title_dropped_breaks_round_trip :
    to_markdown (Node.Root [Node.Paragraph [Node.Link [Node.Text "a".data none]
        none "b".data (some "t".data)] none] none) = some "[a](b)\n".data ∧
    to_markdown (Node.Root [Node.Paragraph [Node.Link [Node.Text "a".data none]
        none "b".data (some "t".data)] none] none) =
      to_markdown (Node.Root [Node.Paragraph [Node.Link [Node.Text "a".data none]
        none "b".data none] none] none) ∧
    Node.Root [Node.Paragraph [Node.Link [Node.Text "a".data none]
        none "b".data (some "t".data)] none] none ≠
      Node.Root [Node.Paragraph [Node.Link [Node.Text "a".data none]
        none "b".data none] none] none := by
  refine ⟨by decide, by decide, ?_⟩
  simp

/-- C2: parsing `"Hello, world!"` yields a Root with a single Paragraph
holding one Text node with that value, and `to_markdown` of that tree is
exactly `"Hello, world!"` followed by one line feed. -/
theorem round_trip_plain_text :
    parse_to_tree "Hello, world!" =
      Except.ok (Node.Root [Node.Paragraph
        [Node.Text "Hello, world!".data none] none] none) ∧
    to_markdown (Node.Root [Node.Paragraph
        [Node.Text "Hello, world!".data none] none] none) =
      some "Hello, world!\n".data :=
  ⟨rfl, by decide⟩

/-- C3: serializing a BlockQuote holding one Paragraph with text
`"a\nb"` yields exactly `"> a\n> b\n"` (the `> ` marker on every content
line), and re-parsing that text yields the same BlockQuote with the
markers stripped from the literal value. -/
theorem blockquote_line_prefix_round_trip :
    to_markdown (Node.BlockQuote [Node.Paragraph
        [Node.Text "a\nb".data none] none] none) = some "> a\n> b\n".data ∧
    parse_to_tree "> a\n> b\n" =
      Except.ok (Node.Root [Node.BlockQuote [Node.Paragraph
        [Node.Text "a\nb".data none] none] none] none) :=
  ⟨by decide, rfl⟩

/-- C4: a Heading of depth `d` serializes to exactly `d` hash characters,
one space, the serialized children, and two line feeds; `"# a"` parses to
a Heading of depth 1 while `"#a"` (no space after the hash) parses to a
plain Paragraph with Text, not a Heading. -/
theorem heading_serialization_and_rank_boundary :
    (∀ (ch : List Node) (pos : Option Position) (d : Nat),
      to_markdown (Node.Heading ch pos d) =
        (to_markdown_list ch).map fun kids =>
          List.replicate d '#' ++ ' ' :: (kids ++ ['\n', '\n'])) ∧
    parse_to_tree "# a" =
      Except.ok (Node.Root [Node.Heading [Node.Text "a".data none] none 1] none) ∧
    parse_to_tree "#a" =
      Except.ok (Node.Root [Node.Paragraph [Node.Text "#a".data none] none] none) ∧
    to_markdown (Node.Heading [Node.Text "a".data none] none 1) =
      some "# a\n\n".data :=
  ⟨fun _ _ _ => rfl, rfl, rfl, by decide⟩

/-- C5: every variant whose `to_markdown` branch is a `todo!()` signals
the unimplemented case (modelled as `none`, the panic) instead of
returning a string with the node silently dropped. -/
theorem todo_variants_signal_unimplemented (n : Node)
    (h : todoVariant n = true) : to_markdown n = none := by
  cases n <;> first
    | rfl
    | simp [todoVariant] at h

/-- Witness for C5 at the concrete node `ThematicBreak`. -/
theorem todo_variants_signal_unimplemented_witness :
    todoVariant (Node.ThematicBreak none) = true ∧
    to_markdown (Node.ThematicBreak none) = none :=
  ⟨rfl, todo_variants_signal_unimplemented (Node.ThematicBreak none) rfl⟩

/-- C6: `Node::children` returns `some` exactly on the variants the spec
classifies as parents, and `none` on every literal and void variant. -/
theorem children_some_iff_parent_variant (n : Node) :
    (Node.children n).isSome = isParentVariantSpec n := by
  cases n <;> rfl

/-- C7: the repository's own test asserts that the empty attribute value
expression in `"a <b c={} /> d"` fails with the error
`"1:15: Could not parse expression with swc: Unexpected eof"`; the only
closing brace of that input is at 0-indexed offset 8 — 1-indexed column
9 — and the input is just 14 characters long, so the reported column 15
lies past the end of the input and not at the closing brace, contrary to
the claim and the spec's fatal-error-exactness property. -/
theorem empty_expression_error_not_at_closing_brace :
    errorLineCol mdx_empty_expression_error.data = some (1, 15) ∧
    firstIndexOf '}' mdx_empty_expression_input.data = some 8 ∧
    mdx_empty_expression_input.data.length = 14 ∧
    (8 + 1 : Nat) ≠ 15 := by
  decide

/-- C8: the unterminated emphasis opener in `"*a"` does not fail: the
parse succeeds with a Paragraph holding the literal text `"*a"` (the
construct's whole original span). -/
theorem unmatched_emphasis_degrades_to_text :
    parse_to_tree "*a" =
      Except.ok (Node.Root [Node.Paragraph [Node.Text "*a".data none] none] none) :=
  rfl

/-- C9: when a BlockQuote's children serialize to a string with no line
feed (for example a bare Text child), `to_markdown` returns exactly
`"> \n"` — the children's entire text is absent from the output. -/
theorem blockquote_drops_children_without_newline
    (children : List Node) (pos : Option Position) (s : List Char)
    (h1 : to_markdown_list children = some s)
    (h2 : hasChar '\n' s = false) :
    to_markdown (Node.BlockQuote children pos) = some ['>', ' ', '\n'] := by
  simp [to_markdown, h1, rsplitOnceChar_eq_none '\n' s h2]

/-- Witness for C9 at a BlockQuote holding the bare text `"a"`. -/
theorem blockquote_drops_children_without_newline_witness :
    to_markdown_list [Node.Text "a".data none] = some "a".data ∧
    hasChar '\n' "a".data = false ∧
    to_markdown (Node.BlockQuote [Node.Text "a".data none] none) =
      some ['>', ' ', '\n'] :=
  ⟨rfl, rfl,
    blockquote_drops_children_without_newline
      [Node.Text "a".data none] none "a".data rfl rfl⟩

/-- C10: for every node and every optional position, `position_set`
makes `position` return exactly the new value, and changes nothing but
the position field — restoring the old position restores the node
exactly. -/
theorem position_set_sets_position_and_frames :
    ∀ (n : Node) (p : Option Position),
      (n.position_set p).position = p ∧
      (n.position_set p).position_set n.position = n := by
  intro n p
  cases n <;> exact ⟨rfl, rfl⟩

end Markdown
